import Mathlib

/-
Verification of the naming logic of fontname.py against its specification.

The development shallowly embeds the program (src/fontname.py):
pure string manipulation is translated to Lean functions on String
(Lean 4.14 String is a wrapper around List Char), and the effectful
driver `main` is translated to a function from an abstract environment
(filesystem / font library behaviour) and an argument list to a trace of
observable effects plus a process outcome.
-/

namespace Fontname

/-! ## Python string primitives -/

/-- Python `s.replace(c, "")` for a one-character pattern: every occurrence
of the character `c` is removed. -/
def pyReplaceAll (c : Char) (s : String) : String :=
  String.mk (s.data.filter (fun a => a != c))

/-- Whitespace characters stripped by Python `str.strip()` (the ASCII /
Latin-1 ones; more exotic Unicode space code points are not relevant to
the claims and are omitted from the model). -/
def isPySpace (c : Char) : Bool :=
  c == ' ' || c == '\t' || c == '\n' || c == '\x0b' || c == '\x0c' || c == '\r' ||
  c == '\x1c' || c == '\x1d' || c == '\x1e' || c == '\x1f' || c == '\x85' || c == '\xa0'

/-- Strip on a character list: drop whitespace from the front, then from
the back (implemented by reversing). -/
def stripChars (l : List Char) : List Char :=
  ((l.dropWhile isPySpace).reverse.dropWhile isPySpace).reverse

/-- Python `s.strip()`. -/
def pyStrip (s : String) : String :=
  String.mk (stripChars s.data)

/-- Python `":" in family_style` (the format check at line 53). -/
def hasColon (s : String) : Bool :=
  s.data.contains ':'

/-- Python `family_style.split(":", 1)` followed by `.strip()` on both
parts (lines 59-60).  Only used under the `hasColon` guard, exactly like
the source. -/
def parseSpec (s : String) : String × String :=
  (pyStrip (String.mk (s.data.takeWhile (fun c => c != ':'))),
   pyStrip (String.mk ((s.data.dropWhile (fun c => c != ':')).tail)))

/-! ## Derived name strings (fontname.py lines 73-77) -/

/-- Line 73: `postscript_font_name = font_name.replace(" ", "")`. -/
def postscript_font_name (font_name : String) : String :=
  pyReplaceAll ' ' font_name

/-- Line 74: `nameID1_string = font_name`. -/
def nameID1_string (font_name : String) : String :=
  font_name

/-- Line 75: `nameID16_string = font_name`. -/
def nameID16_string (font_name : String) : String :=
  font_name

/-- Line 76: `nameID4_string = f"{font_name} {style}"`. -/
def nameID4_string (font_name style : String) : String :=
  font_name ++ " " ++ style

/-- Line 77: `nameID6_string = f"{postscript_font_name}-{style.replace(' ', '')}"`. -/
def nameID6_string (font_name style : String) : String :=
  postscript_font_name font_name ++ "-" ++ pyReplaceAll ' ' style

/-- Specification-side formulation of `postscriptFamily`: "family with
all spaces removed", written out from the words of the spec and kept
separate from the source-derived `postscript_font_name` so the two can
be compared (claim C1). -/
def specStripSpaces (family : String) : String :=
  String.mk (family.data.filter (fun a => a != ' '))

/-! ## Name records (the fontTools name table) -/

/-- One record of the OpenType name table, with the fields the program
reads or writes (`nameID`, `string`) and the identification axes that
fontTools carries on every record. -/
structure NameRecord where
  nameID : Nat
  platformID : Nat
  platEncID : Nat
  langID : Nat
  string : String
deriving DecidableEq, Repr

/-- Update of a single name record (the `if/elif` chain of lines 80-90):
ids 1, 4, 6, 16 and 2 get the derived strings, every other record is
returned unchanged. -/
def updateRecord (font_name style : String) (r : NameRecord) : NameRecord :=
  if r.nameID = 1 then { r with string := nameID1_string font_name }
  else if r.nameID = 4 then { r with string := nameID4_string font_name style }
  else if r.nameID = 6 then { r with string := nameID6_string font_name style }
  else if r.nameID = 16 then { r with string := nameID16_string font_name }
  else if r.nameID = 2 then { r with string := style }
  else r

/-- The loop `for record in namerecord_list` updates each record in
place: as a pure function, a map over the record list. -/
def updateRecords (font_name style : String) (rs : List NameRecord) : List NameRecord :=
  rs.map (updateRecord font_name style)

/-! ## CFF substructure and fonts -/

/-- CFF naming fields written at lines 96-98 (`cff.cff[0].FamilyName`,
`cff.cff[0].FullName`, `cff.cff.fontNames`). -/
structure CFFNames where
  FamilyName : String
  FullName : String
  fontNames : List String
deriving DecidableEq, Repr

/-- An in-memory font (the `tt` handle): its name table records, the
optional CFF substructure (`"CFF " in tt`), and a flag recording whether
the CFF assignments of lines 96-98 would raise (the `except` at line 99). -/
structure Font where
  names : List NameRecord
  cff : Option CFFNames
  cffBroken : Bool
deriving DecidableEq, Repr

/-- The three CFF assignments of lines 96-98: all three fields are
overwritten with the derived names. -/
def updateCFF (font_name style : String) (_c : CFFNames) : CFFNames :=
  { FamilyName := nameID1_string font_name,
    FullName := nameID4_string font_name style,
    fontNames := [nameID6_string font_name style] }

/-! ## Output filename (os.path.splitext, lines 104-107) -/

/-- Characters after the last `'/'` of a POSIX path (the final path
component, as used by `posixpath.splitext`). -/
def basenameChars (p : List Char) : List Char :=
  (p.reverse.takeWhile (fun c => c != '/')).reverse

/-- Extension of a final path component, following `posixpath.splitext`:
leading dots do not start an extension; otherwise the extension runs from
the last dot (inclusive) to the end.  Empty when there is no such dot. -/
def extChars (b : List Char) : List Char :=
  let rest := b.dropWhile (fun c => c == '.')
  let revTail := rest.reverse.takeWhile (fun c => c != '.')
  if revTail.length < rest.length then '.' :: revTail.reverse else []

/-- Python `os.path.splitext(font_path)[1]` (POSIX semantics). -/
def splitextExt (p : String) : String :=
  String.mk (extChars (basenameChars p.data))

/-- The extension-free part of the derived output filename,
`f"{postscript_font_name}-{safe_style}"` with `safe_style =
style.replace(" ", "")` (line 106). -/
def fnameStem (font_name style : String) : String :=
  postscript_font_name font_name ++ "-" ++ pyReplaceAll ' ' style

/-- Line 107: `new_filename = f"{postscript_font_name}-{safe_style}{ext}"`. -/
def newFilename (font_name style font_path : String) : String :=
  fnameStem font_name style ++ splitextExt font_path

/-! ## Driver: effects, outcomes, environment -/

/-- Observable effects of a run: lines printed to stdout, strings written
to stderr, font loads, and font saves. -/
inductive Effect where
  | stdoutLine (s : String)
  | stderrWrite (s : String)
  | loadFont (path : String)
  | saveFont (path : String) (f : Font)
deriving DecidableEq, Repr

/-- Uncaught Python exceptions the program can die with: the `NameError`
raised while formatting the second usage line (the f-string at line 37
contains the field `{ttf,otf}` whose expression is undefined), and an
exception from `ttLib.TTFont` (line 69, not wrapped in any try/except). -/
inductive PyExc where
  | nameError
  | ttLibError (path : String)
deriving DecidableEq, Repr

/-- How the process ends: an explicit `sys.exit` / fall-through (exit
code), or an uncaught exception (the interpreter prints a traceback to
stderr and exits with status 1). -/
inductive Outcome where
  | exitCode (code : Nat)
  | uncaught (e : PyExc)
deriving DecidableEq, Repr

/-- Process exit status of an outcome (CPython exits with status 1 on an
uncaught exception). -/
def Outcome.code : Outcome → Nat
  | Outcome.exitCode n => n
  | Outcome.uncaught _ => 1

/-- Abstract behaviour of the filesystem and of the fontTools library:
whether a path is an existing regular file (`file_exists`, line 123-125),
what `ttLib.TTFont` yields for a path (`none` = the constructor raises),
and whether `tt.save` succeeds on a target filename. -/
structure Env where
  fileExists : String → Bool
  loadFont : String → Option Font
  saveOk : String → Bool

/-! ## Driver: message strings (Linux, so `os.linesep = "\n"`) -/

/-- Diagnostic prefix used by every handled error message. -/
def errPrefix : String := "[fontname.py] ERROR:"

/-- Builds a full diagnostic from the prefix and a message body. -/
def errMsg (body : String) : String := errPrefix ++ " " ++ body

/-- Stderr message of lines 33-35 (argument-count failure). -/
def usageMsg1 : String :=
  errMsg ("arguments must be pairs of \"Font Family:Weight\" and font path.\n")

/-- Stderr message of lines 47-49; the interpolated exception text is
abstracted as a placeholder. -/
def parseErrMsg : String :=
  errMsg ("Unable to parse arguments. <exception>\n")

/-- Stderr message of lines 54-56. -/
def fmtErrMsg (family_style : String) : String :=
  errMsg ("\x27" ++ family_style ++ "\x27 must be in \x27Font Family:Weight\x27 format.\n")

/-- Stderr message of lines 64-66. -/
def pathErrMsg (font_path : String) : String :=
  errMsg ("the path \x27" ++ font_path ++ "\x27 does not appear to be a valid file path.\n")

/-- Stderr message of lines 100-102 (no trailing newline in the source);
the interpolated exception text is abstracted as a placeholder. -/
def cffErrMsg : String :=
  errMsg ("unable to write new names to CFF table: <exception>")

/-- First stderr message of lines 116-118. -/
def saveErrMsg (new_filename : String) : String :=
  errMsg ("unable to save new font file \x27" ++ new_filename ++ "\x27. \n")

/-- Second stderr write of line 119 (`f"{e}{os.linesep}"`). -/
def saveExcMsg : String := "<exception>\n"

/-- Stdout confirmation of lines 112-114. -/
def okMsg (new_filename font_name style : String) : String :=
  "[OK] Saved \x27" ++ new_filename ++ "\x27 with family \x27" ++ font_name ++
  "\x27 and style \x27" ++ style ++ "\x27"

/-! ## Driver: per-pair processing and the main loop -/

/-- In-memory renaming of one loaded font: the record-table update of
lines 80-90 followed by the CFF block of lines 92-102.  Returns the
effects of the block (a warning when the CFF update raises) and the
mutated font. -/
def renameFont (font_name style : String) (tt : Font) : List Effect × Font :=
  let tt1 : Font := { tt with names := updateRecords font_name style tt.names }
  match tt1.cff with
  | none => ([], tt1)
  | some c =>
    if tt1.cffBroken then
      ([Effect.stderrWrite cffErrMsg], tt1)
    else
      ([], { tt1 with cff := some (updateCFF font_name style c) })

/-- Processing of one pair after the format check: the existence check of
lines 62-67, the load of line 69, renaming, and the save of lines
109-120.  The second component is `some outcome` when the run stops here
and `none` when the loop continues with the next pair. -/
def processLoaded (env : Env) (font_name style font_path : String) :
    List Effect × Option Outcome :=
  if env.fileExists font_path = false then
    ([Effect.stderrWrite (pathErrMsg font_path)], some (Outcome.exitCode 1))
  else
    match env.loadFont font_path with
    | none => ([Effect.loadFont font_path], some (Outcome.uncaught (PyExc.ttLibError font_path)))
    | some tt =>
      let rn := renameFont font_name style tt
      let fname := newFilename font_name style font_path
      if env.saveOk fname then
        (Effect.loadFont font_path :: rn.1 ++
           [Effect.saveFont fname rn.2, Effect.stdoutLine (okMsg fname font_name style)],
         none)
      else
        (Effect.loadFont font_path :: rn.1 ++
           [Effect.stderrWrite (saveErrMsg fname), Effect.stderrWrite saveExcMsg],
         some (Outcome.exitCode 1))

/-- Processing of one `(family_style, font_path)` pair: the format check
of lines 53-57, then `processLoaded`. -/
def processPair (env : Env) (family_style font_path : String) :
    List Effect × Option Outcome :=
  if hasColon family_style = false then
    ([Effect.stderrWrite (fmtErrMsg family_style)], some (Outcome.exitCode 1))
  else
    processLoaded env (parseSpec family_style).1 (parseSpec family_style).2 font_path

/-- The `try` of lines 43-50: both index accesses as options. -/
def getPair (argv : List String) (i : Nat) : Option (String × String) :=
  match argv.get? i, argv.get? (i + 1) with
  | some a, some b => some (a, b)
  | _, _ => none

/-- The loop `for i in range(0, len(argv), 2)` from index `i` on.  The
fuel argument only certifies termination: `runMain` passes
`argv.length`, which strictly dominates the number of remaining
iterations, so the fuel never runs out before the loop ends. -/
def processFrom (env : Env) (argv : List String) : Nat → Nat → List Effect × Outcome
  | 0, _ => ([], Outcome.exitCode 0)
  | fuel + 1, i =>
    if i < argv.length then
      match getPair argv i with
      | none => ([Effect.stderrWrite parseErrMsg], Outcome.exitCode 1)
      | some (fs, fp) =>
        match processPair env fs fp with
        | (effs, some out) => (effs, out)
        | (effs, none) =>
          match processFrom env argv fuel (i + 2) with
          | (effs2, out) => (effs ++ effs2, out)
    else ([], Outcome.exitCode 0)

/-- The whole of `main(argv)`: the `print(" ")` of line 29, the
argument-count check of lines 32-39 (whose second stderr write raises
`NameError`, see `PyExc.nameError`), then the pair loop. -/
def runMain (env : Env) (argv : List String) : List Effect × Outcome :=
  if argv.length < 2 ∨ argv.length % 2 ≠ 0 then
    ([Effect.stdoutLine " ", Effect.stderrWrite usageMsg1], Outcome.uncaught PyExc.nameError)
  else
    match processFrom env argv argv.length 0 with
    | (effs, out) => (Effect.stdoutLine " " :: effs, out)

/-! ## Auxiliary decidable predicates and concrete test data -/

/-- Decides whether the first list is an initial segment of the second. -/
def isPre : List Char → List Char → Bool
  | [], _ => true
  | _ :: _, [] => false
  | a :: as, b :: bs => a == b && isPre as bs

/-- An effect is a stderr write beginning with the diagnostic prefix
`[fontname.py] ERROR:`. -/
def isErrLine : Effect → Bool
  | Effect.stderrWrite s => isPre errPrefix.data s.data
  | _ => false

/-- An effect that loads or saves a font (i.e. touches a font file). -/
def touchesFont : Effect → Bool
  | Effect.loadFont _ => true
  | Effect.saveFont _ _ => true
  | _ => false

/-- Index sequence of the pair loop, `range(0, n, 2)` for even `n`. -/
def loopIndices (n : Nat) : List Nat :=
  (List.range (n / 2)).map (fun k => 2 * k)

/-- Sample record with a nameID the program never rewrites. -/
def nameRec0 : NameRecord := ⟨0, 3, 1, 1033, "Copyright 2019"⟩

/-- Sample subfamily (style) record. -/
def nameRec2 : NameRecord := ⟨2, 3, 1, 1033, "Regular"⟩

/-- Sample name table covering the rewritten ids and one untouched id. -/
def sampleNames : List NameRecord :=
  [nameRec0, ⟨1, 3, 1, 1033, "Old"⟩, nameRec2, ⟨4, 3, 1, 1033, "Old Regular"⟩,
   ⟨6, 3, 1, 1033, "Old-Regular"⟩, ⟨16, 3, 1, 1033, "Old"⟩]

/-- Sample TrueType font (no CFF substructure). -/
def sampleFont : Font :=
  { names := [⟨1, 3, 1, 1033, "Old"⟩], cff := none, cffBroken := false }

/-- Environment with one loadable font file `good.ttf` and a writable
filesystem. -/
def goodEnv : Env :=
  { fileExists := fun p => p == "good.ttf",
    loadFont := fun p => if p == "good.ttf" then some sampleFont else none,
    saveOk := fun _ => true }

/-- Environment in which `bad.ttf` exists but is not a parseable font
container (`ttLib.TTFont` raises). -/
def badLoadEnv : Env :=
  { fileExists := fun p => p == "bad.ttf",
    loadFont := fun _ => none,
    saveOk := fun _ => true }

/-- Sample CFF font whose CFF substructure update raises. -/
def cffBrokenFont : Font :=
  { names := [⟨1, 3, 1, 1033, "Old"⟩, ⟨6, 3, 1, 1033, "Old-Regular"⟩],
    cff := some { FamilyName := "Old", FullName := "Old Regular", fontNames := ["Old-Regular"] },
    cffBroken := true }

/-- Environment serving `cffBrokenFont` at `font.otf`. -/
def cffEnv : Env :=
  { fileExists := fun p => p == "font.otf",
    loadFont := fun p => if p == "font.otf" then some cffBrokenFont else none,
    saveOk := fun _ => true }

/-- Result of renaming `sampleFont` with family "New Fam". -/
def savedSampleFont : Font :=
  { names := [⟨1, 3, 1, 1033, "New Fam"⟩], cff := none, cffBroken := false }

/-! ## General lemmas -/

theorem data_append (s t : String) : (s ++ t).data = s.data ++ t.data := rfl

theorem isPre_self_append : ∀ (l t : List Char), isPre l (l ++ t) = true
  | [], _ => rfl
  | a :: as, t => by simp [isPre, isPre_self_append as t]

/-- Every message built by `errMsg` carries the diagnostic prefix. -/
theorem isErrLine_errMsg (b : String) :
    isErrLine (Effect.stderrWrite (errMsg b)) = true := by
  show isPre errPrefix.data (errMsg b).data = true
  have h : (errMsg b).data = errPrefix.data ++ (" ".data ++ b.data) := by
    show ((errPrefix ++ " ") ++ b).data = _
    rw [data_append, data_append, List.append_assoc]
  rw [h]
  exact isPre_self_append _ _

theorem all_ne_space_replace (s : String) :
    ((pyReplaceAll ' ' s).data.all (fun c => c != ' ')) = true := by
  rw [List.all_eq_true]
  intro c hc
  exact (List.mem_filter.mp hc).2

theorem get?_isSome_of_lt : ∀ (l : List String) (i : Nat), i < l.length → (l.get? i).isSome = true := by
  intro l
  induction l with
  | nil => intro i h; simp at h
  | cons a t ih =>
    intro i h
    cases i with
    | zero => rfl
    | succ j => exact ih j (by simpa using h)

/-! ## Claim C1: the five derived name strings -/

/-- C1.  For every NameSpec (family, style) the derived strings are:
postscriptFamily = family with all spaces removed, nameFamily = family,
nameTypographicFamily = family, nameFullName = family ++ " " ++ style,
namePostscript = postscriptFamily ++ "-" ++ style-without-spaces, and
nameStyle (the string written into nameID 2 records) = style verbatim. -/
theorem derived_names (family style : String) :
    postscript_font_name family = specStripSpaces family
  ∧ nameID1_string family = family
  ∧ nameID16_string family = family
  ∧ nameID4_string family style = family ++ " " ++ style
  ∧ nameID6_string family style = specStripSpaces family ++ "-" ++ specStripSpaces style
  ∧ (∀ r : NameRecord, r.nameID = 2 → (updateRecord family style r).string = style) := by
  refine ⟨rfl, rfl, rfl, rfl, rfl, ?_⟩
  intro r h2
  simp [updateRecord, h2]

/-- Witness for C1 at a concrete spec and record. -/
theorem derived_names_witness :
    (updateRecord "Open Sans" "Bold Italic" nameRec2).string = "Bold Italic"
  ∧ nameID6_string "Open Sans" "Bold Italic" = "OpenSans-BoldItalic" :=
  ⟨(derived_names "Open Sans" "Bold Italic").2.2.2.2.2 nameRec2 rfl, by decide⟩

/-! ## Claim C2: frame property of the name-table update -/

/-- C2.  The record update neither adds nor removes records, preserves
every record's nameID, platformID, platEncID and langID, and leaves any
record whose nameID is not 1, 2, 4, 6 or 16 completely unchanged (only
the string payload of those five ids is modified). -/
theorem name_table_frame (f s : String) (rs : List NameRecord) :
    (updateRecords f s rs).length = rs.length
  ∧ (∀ r : NameRecord,
      (updateRecord f s r).nameID = r.nameID ∧
      (updateRecord f s r).platformID = r.platformID ∧
      (updateRecord f s r).platEncID = r.platEncID ∧
      (updateRecord f s r).langID = r.langID)
  ∧ (∀ r : NameRecord,
      ¬(r.nameID = 1 ∨ r.nameID = 2 ∨ r.nameID = 4 ∨ r.nameID = 6 ∨ r.nameID = 16) →
      updateRecord f s r = r) := by
  refine ⟨by simp [updateRecords], ?_, ?_⟩
  · intro r
    unfold updateRecord
    split_ifs <;> exact ⟨rfl, rfl, rfl, rfl⟩
  · intro r h
    have h1 : ¬ r.nameID = 1 := fun e => h (Or.inl e)
    have h2 : ¬ r.nameID = 2 := fun e => h (Or.inr (Or.inl e))
    have h4 : ¬ r.nameID = 4 := fun e => h (Or.inr (Or.inr (Or.inl e)))
    have h6 : ¬ r.nameID = 6 := fun e => h (Or.inr (Or.inr (Or.inr (Or.inl e))))
    have h16 : ¬ r.nameID = 16 := fun e => h (Or.inr (Or.inr (Or.inr (Or.inr e))))
    unfold updateRecord
    rw [if_neg h1, if_neg h4, if_neg h6, if_neg h16, if_neg h2]

/-- Witness for C2 on a concrete table and an untouched record. -/
theorem name_table_frame_witness :
    (updateRecords "Open Sans" "Bold" sampleNames).length = sampleNames.length
  ∧ updateRecord "Open Sans" "Bold" nameRec0 = nameRec0 :=
  ⟨(name_table_frame "Open Sans" "Bold" sampleNames).1,
   (name_table_frame "Open Sans" "Bold" sampleNames).2.2 nameRec0 (by decide)⟩

/-! ## Claim C9: the PostScript name is space-free -/

/-- C9.  For every well-formed "Family:Style" token, the derived
namePostscript contains no space character and equals
postscriptFamily ++ "-" ++ style-with-spaces-stripped. -/
theorem postscript_name_spacefree (tok : String) (_h : hasColon tok = true) :
    ((nameID6_string (parseSpec tok).1 (parseSpec tok).2).data.all (fun c => c != ' ')) = true
  ∧ nameID6_string (parseSpec tok).1 (parseSpec tok).2
      = postscript_font_name (parseSpec tok).1 ++ "-" ++ pyReplaceAll ' ' (parseSpec tok).2 := by
  refine ⟨?_, rfl⟩
  show (((postscript_font_name (parseSpec tok).1 ++ "-") ++ pyReplaceAll ' ' (parseSpec tok).2).data.all
    (fun c => c != ' ')) = true
  rw [data_append, data_append, List.all_append, List.all_append]
  unfold postscript_font_name
  rw [all_ne_space_replace, all_ne_space_replace]
  rfl

/-- Witness for C9 at a concrete token. -/
theorem postscript_name_spacefree_witness :
    hasColon "Open Sans:Bold Italic" = true
  ∧ ((nameID6_string (parseSpec "Open Sans:Bold Italic").1
        (parseSpec "Open Sans:Bold Italic").2).data.all (fun c => c != ' ')) = true :=
  ⟨by decide, (postscript_name_spacefree "Open Sans:Bold Italic" (by decide)).1⟩

/-! ## Claim C10: loop index accesses are in bounds -/

/-- C10.  When the argument list passes the initial length check (even
length, at least 2), every access `argv[i]` and `argv[i+1]` made by the
pair loop is in bounds, so the "Unable to parse arguments" branch
(`getPair = none`) is unreachable. -/
theorem loop_index_bounds (argv : List String) (heven : argv.length % 2 = 0)
    (_hlen : 2 ≤ argv.length) :
    ∀ i ∈ loopIndices argv.length,
      (argv.get? i).isSome = true ∧ (argv.get? (i + 1)).isSome = true ∧ getPair argv i ≠ none := by
  intro i hi
  rcases List.mem_map.mp hi with ⟨k, hk, rfl⟩
  have hk2 : k < argv.length / 2 := List.mem_range.mp hk
  have h1 : 2 * k < argv.length := by omega
  have h2 : 2 * k + 1 < argv.length := by omega
  refine ⟨get?_isSome_of_lt _ _ h1, get?_isSome_of_lt _ _ h2, ?_⟩
  rcases Option.isSome_iff_exists.mp (get?_isSome_of_lt _ _ h1) with ⟨a, ha⟩
  rcases Option.isSome_iff_exists.mp (get?_isSome_of_lt _ _ h2) with ⟨b, hb⟩
  intro hnone
  unfold getPair at hnone
  rw [ha, hb] at hnone
  simp at hnone

/-- Witness for C10 at a concrete two-element argument list. -/
theorem loop_index_bounds_witness :
    ((["Fam:Style", "font.ttf"] : List String).get? 0).isSome = true
  ∧ ((["Fam:Style", "font.ttf"] : List String).get? 1).isSome = true
  ∧ getPair ["Fam:Style", "font.ttf"] 0 ≠ none := by
  have h := loop_index_bounds ["Fam:Style", "font.ttf"] (by decide) (by decide) 0 (by decide)
  exact h

/-! ## dropWhile / strip lemmas -/

theorem dropWhile_dropWhile (p : Char → Bool) : ∀ l : List Char,
    (l.dropWhile p).dropWhile p = l.dropWhile p := by
  intro l
  induction l with
  | nil => rfl
  | cons a t ih =>
    by_cases h : p a
    · simp [List.dropWhile, h, ih]
    · simp [List.dropWhile, h]

theorem head_dropWhile_false (p : Char → Bool) : ∀ (l : List Char) (c : Char) (t : List Char),
    l.dropWhile p = c :: t → p c = false := by
  intro l
  induction l with
  | nil => intro c t h; simp [List.dropWhile] at h
  | cons a as ih =>
    intro c t h
    by_cases ha : p a
    · rw [List.dropWhile_cons_of_pos ha] at h
      exact ih c t h
    · rw [List.dropWhile_cons_of_neg ha] at h
      cases h
      simpa using ha

theorem dropWhile_of_head_false (p : Char → Bool) (c : Char) (t : List Char)
    (h : p c = false) : (c :: t).dropWhile p = c :: t := by
  rw [List.dropWhile_cons_of_neg (by simp [h])]

/-- When the front of `y` is already stripped, stripping the back
(reverse, dropWhile, reverse) does not create new whitespace at the
front: the result is still a fixed point of `dropWhile p`. -/
theorem back_strip_keeps_head (p : Char → Bool) (y : List Char) (hy : y.dropWhile p = y) :
    ((y.reverse.dropWhile p).reverse).dropWhile p = (y.reverse.dropWhile p).reverse := by
  cases hm : y.reverse.dropWhile p with
  | nil => simp
  | cons c t =>
    have hm_ne : y.reverse.dropWhile p ≠ [] := by rw [hm]; exact List.cons_ne_nil _ _
    have hyne : y ≠ [] := by
      intro h0
      apply hm_ne
      rw [h0]
      rfl
    obtain ⟨c0, t0, hy0⟩ := List.exists_cons_of_ne_nil hyne
    have hpc0 : p c0 = false := by
      apply head_dropWhile_false p y c0 t0
      rw [hy, hy0]
    have hgl : (y.reverse.dropWhile p).getLast? = some c0 := by
      have hsplit : y.reverse.takeWhile p ++ y.reverse.dropWhile p = y.reverse :=
        List.takeWhile_append_dropWhile p y.reverse
      have h2 : y.reverse.getLast? = (y.reverse.dropWhile p).getLast? := by
        conv_lhs => rw [← hsplit]
        exact List.getLast?_append_of_ne_nil _ hm_ne
      have h4 := List.head?_reverse y.reverse
      rw [List.reverse_reverse] at h4
      rw [← h2, ← h4, hy0]
      rfl
    have hhead : ((y.reverse.dropWhile p).reverse).head? = some c0 := by
      rw [List.head?_reverse, hgl]
    rw [hm] at hhead
    cases hr : (c :: t).reverse with
    | nil => simp at hr
    | cons c1 t1 =>
      rw [hr] at hhead
      have hc1 : c1 = c0 := by simpa using hhead
      exact dropWhile_of_head_false p c1 t1 (by rw [hc1]; exact hpc0)

/-- Stripping twice is the same as stripping once. -/
theorem stripChars_idem (l : List Char) : stripChars (stripChars l) = stripChars l := by
  unfold stripChars
  rw [back_strip_keeps_head isPySpace (l.dropWhile isPySpace) (dropWhile_dropWhile isPySpace l)]
  rw [List.reverse_reverse, dropWhile_dropWhile]

/-- Python strip is idempotent. -/
theorem pyStrip_idem (s : String) : pyStrip (pyStrip s) = pyStrip s := by
  show String.mk (stripChars (String.mk (stripChars s.data)).data) = String.mk (stripChars s.data)
  rw [show (String.mk (stripChars s.data)).data = stripChars s.data from rfl, stripChars_idem]

/-! ## Claim C3 (corrected): when malformed arguments abort the run -/

/-- Counterexample to C3 as stated: with the offending token (missing
`:`) in third position, the first pair is fully processed — its font is
loaded, mutated and written — before the process exits with code 1. -/
theorem pair_processed_before_exit :
    (runMain goodEnv ["New Fam:Bold", "good.ttf", "missing-colon", "good.ttf"]).2
      = Outcome.exitCode 1
  ∧ Effect.saveFont "NewFam-Bold.ttf" savedSampleFont
      ∈ (runMain goodEnv ["New Fam:Bold", "good.ttf", "missing-colon", "good.ttf"]).1 := by
  decide

/-- C3 amended.  An argument list of odd length or of length below 2
terminates the process with status 1 before any pair is touched (the
usage diagnostic is written, then the second usage f-string raises
NameError; no font is loaded, mutated or written).  A spec token lacking
`:` or a missing font file terminates the run with exit code 1 at its own
pair without loading, mutating or writing that pair's font — but pairs
earlier in the argument list have already been fully processed. -/
theorem arg_validation :
    (∀ (env : Env) (argv : List String), (argv.length < 2 ∨ argv.length % 2 ≠ 0) →
      runMain env argv =
        ([Effect.stdoutLine " ", Effect.stderrWrite usageMsg1], Outcome.uncaught PyExc.nameError)
      ∧ Outcome.code (runMain env argv).2 = 1
      ∧ ((runMain env argv).1.all (fun e => !(touchesFont e))) = true)
  ∧ (∀ (env : Env) (fs fp : String), hasColon fs = false →
      processPair env fs fp = ([Effect.stderrWrite (fmtErrMsg fs)], some (Outcome.exitCode 1)))
  ∧ (∀ (env : Env) (fs fp : String), hasColon fs = true → env.fileExists fp = false →
      processPair env fs fp = ([Effect.stderrWrite (pathErrMsg fp)], some (Outcome.exitCode 1))) := by
  refine ⟨?_, ?_, ?_⟩
  · intro env argv h
    have heq : runMain env argv =
        ([Effect.stdoutLine " ", Effect.stderrWrite usageMsg1], Outcome.uncaught PyExc.nameError) := by
      unfold runMain
      rw [if_pos h]
    refine ⟨heq, ?_, ?_⟩
    · rw [heq]; rfl
    · rw [heq]; rfl
  · intro env fs fp h
    simp [processPair, h]
  · intro env fs fp h1 h2
    simp [processPair, processLoaded, h1, h2]

/-- Witness for the amended C3 at concrete inputs. -/
theorem arg_validation_witness :
    (runMain goodEnv ["lonely"] =
       ([Effect.stdoutLine " ", Effect.stderrWrite usageMsg1], Outcome.uncaught PyExc.nameError)
     ∧ Outcome.code (runMain goodEnv ["lonely"]).2 = 1
     ∧ ((runMain goodEnv ["lonely"]).1.all (fun e => !(touchesFont e))) = true)
  ∧ processPair goodEnv "missing-colon" "good.ttf"
      = ([Effect.stderrWrite (fmtErrMsg "missing-colon")], some (Outcome.exitCode 1))
  ∧ processPair goodEnv "A:B" "absent.ttf"
      = ([Effect.stderrWrite (pathErrMsg "absent.ttf")], some (Outcome.exitCode 1)) :=
  ⟨arg_validation.1 goodEnv ["lonely"] (by decide),
   arg_validation.2.1 goodEnv "missing-colon" "good.ttf" (by decide),
   arg_validation.2.2 goodEnv "A:B" "absent.ttf" (by decide) (by decide)⟩

/-! ## Claim C4 (corrected): diagnostics on failure paths -/

/-- Equation: the loop with no fuel. -/
theorem processFrom_zero (env : Env) (argv : List String) (i : Nat) :
    processFrom env argv 0 i = ([], Outcome.exitCode 0) := rfl

/-- Equation: the loop once `i` has passed the end of `argv`. -/
theorem processFrom_done (env : Env) (argv : List String) (n i : Nat)
    (h : ¬ i < argv.length) :
    processFrom env argv (n + 1) i = ([], Outcome.exitCode 0) := by
  unfold processFrom
  rw [if_neg h]

/-- Equation: the (unreachable) out-of-bounds branch. -/
theorem processFrom_parse_err (env : Env) (argv : List String) (n i : Nat)
    (hib : i < argv.length) (hg : getPair argv i = none) :
    processFrom env argv (n + 1) i = ([Effect.stderrWrite parseErrMsg], Outcome.exitCode 1) := by
  unfold processFrom
  rw [if_pos hib, hg]

/-- Equation: a pair that stops the run. -/
theorem processFrom_stop (env : Env) (argv : List String) (n i : Nat) (fs fp : String)
    (effs : List Effect) (out : Outcome) (hib : i < argv.length)
    (hg : getPair argv i = some (fs, fp)) (hp : processPair env fs fp = (effs, some out)) :
    processFrom env argv (n + 1) i = (effs, out) := by
  unfold processFrom
  simp only [if_pos hib, hg, hp]

/-- Equation: a pair after which the loop continues. -/
theorem processFrom_cont (env : Env) (argv : List String) (n i : Nat) (fs fp : String)
    (effs : List Effect) (hib : i < argv.length)
    (hg : getPair argv i = some (fs, fp)) (hp : processPair env fs fp = (effs, none)) :
    processFrom env argv (n + 1) i
      = (effs ++ (processFrom env argv n (i + 2)).1, (processFrom env argv n (i + 2)).2) := by
  conv_lhs => unfold processFrom
  simp only [if_pos hib, hg, hp]

/-- Whenever a pair stops the run through `sys.exit(1)`, a prefixed
diagnostic is among its effects. -/
theorem processPair_exit1_err (env : Env) (fs fp : String)
    (h : (processPair env fs fp).2 = some (Outcome.exitCode 1)) :
    ((processPair env fs fp).1.any isErrLine) = true := by
  unfold processPair at h ⊢
  by_cases hc : hasColon fs = false
  · rw [if_pos hc]
    simp [fmtErrMsg, isErrLine_errMsg]
  · rw [if_neg hc] at h ⊢
    unfold processLoaded at h ⊢
    by_cases hf : env.fileExists fp = false
    · rw [if_pos hf]
      simp [pathErrMsg, isErrLine_errMsg]
    · rw [if_neg hf] at h ⊢
      cases hl : env.loadFont fp with
      | none =>
        simp only [hl] at h
        exact absurd h (by simp)
      | some tt =>
        simp only [hl] at h ⊢
        by_cases hs : env.saveOk (newFilename (parseSpec fs).1 (parseSpec fs).2 fp) = true
        · rw [if_pos hs] at h
          exact absurd h (by simp)
        · rw [if_neg hs] at h ⊢
          simp [saveErrMsg, isErrLine_errMsg]

/-- Whenever the pair loop ends in `sys.exit(1)`, a prefixed diagnostic
is in the trace. -/
theorem processFrom_exit1_err (env : Env) (argv : List String) :
    ∀ (fuel i : Nat), (processFrom env argv fuel i).2 = Outcome.exitCode 1 →
      ((processFrom env argv fuel i).1.any isErrLine) = true := by
  intro fuel
  induction fuel with
  | zero =>
    intro i h
    rw [processFrom_zero] at h
    exact absurd h (by simp)
  | succ n ih =>
    intro i h
    by_cases hib : i < argv.length
    · cases hg : getPair argv i with
      | none =>
        rw [processFrom_parse_err env argv n i hib hg] at h ⊢
        simp [parseErrMsg, isErrLine_errMsg]
      | some pr =>
        obtain ⟨fs, fp⟩ := pr
        cases hp : processPair env fs fp with
        | mk effs opt =>
          cases opt with
          | some out =>
            rw [processFrom_stop env argv n i fs fp effs out hib hg hp] at h ⊢
            have hout : out = Outcome.exitCode 1 := h
            have h3 := processPair_exit1_err env fs fp (by rw [hp, hout])
            rw [hp] at h3
            exact h3
          | none =>
            rw [processFrom_cont env argv n i fs fp effs hib hg hp] at h ⊢
            have hout : (processFrom env argv n (i + 2)).2 = Outcome.exitCode 1 := h
            have h4 := ih (i + 2) hout
            show ((effs ++ (processFrom env argv n (i + 2)).1).any isErrLine) = true
            rw [List.any_append, h4]
            simp
    · rw [processFrom_done env argv n i hib] at h
      exact absurd h (by simp)

/-- C4 amended.  Every failure path handled by the program itself writes
a diagnostic prefixed `[fontname.py] ERROR:` to the error stream: the
usage-error path writes one before dying on the NameError of the second
usage line (first conjunct); every run that ends in `sys.exit(1)` — a
malformed token, a missing file, or a save failure — has one in its
trace (second conjunct); and a CFF update failure writes one even though
the run then continues and can end with exit code 0 (third conjunct).
A load failure (the font file exists but `ttLib.TTFont` raises, line 69
being outside any try/except) instead terminates the process through an
uncaught exception: the interpreter prints an unprefixed traceback and
exits with status 1 without any prefixed diagnostic (fourth conjunct). -/
theorem handled_failures_diagnosed :
    (∀ (env : Env) (argv : List String), (argv.length < 2 ∨ argv.length % 2 ≠ 0) →
       ((runMain env argv).1.any isErrLine) = true)
  ∧ (∀ (env : Env) (argv : List String),
       (runMain env argv).2 = Outcome.exitCode 1 →
       ((runMain env argv).1.any isErrLine) = true)
  ∧ (∀ (f s : String) (tt : Font) (c : CFFNames),
       tt.cff = some c → tt.cffBroken = true →
       ((renameFont f s tt).1.any isErrLine) = true)
  ∧ (∀ (env : Env) (fs fp : String),
       hasColon fs = true → env.fileExists fp = true → env.loadFont fp = none →
       processPair env fs fp =
         ([Effect.loadFont fp], some (Outcome.uncaught (PyExc.ttLibError fp)))) := by
  refine ⟨?_, ?_, ?_, ?_⟩
  · intro env argv h
    have heq : runMain env argv =
        ([Effect.stdoutLine " ", Effect.stderrWrite usageMsg1], Outcome.uncaught PyExc.nameError) := by
      unfold runMain
      rw [if_pos h]
    rw [heq]
    decide
  · intro env argv h
    by_cases hb : argv.length < 2 ∨ argv.length % 2 ≠ 0
    · exfalso
      unfold runMain at h
      rw [if_pos hb] at h
      simp at h
    · have hrm : runMain env argv
          = (Effect.stdoutLine " " :: (processFrom env argv argv.length 0).1,
             (processFrom env argv argv.length 0).2) := by
        unfold runMain
        rw [if_neg hb]
      rw [hrm] at h ⊢
      have h2 : (processFrom env argv argv.length 0).2 = Outcome.exitCode 1 := h
      have h4 := processFrom_exit1_err env argv argv.length 0 h2
      show ((Effect.stdoutLine " " :: (processFrom env argv argv.length 0).1).any isErrLine) = true
      rw [List.any_cons, h4]
      simp
  · intro f s tt c hcff hbr
    obtain ⟨nms, cffv, br⟩ := tt
    have hc2 : cffv = some c := hcff
    subst hc2
    have hb2 : br = true := hbr
    subst hb2
    show (([Effect.stderrWrite cffErrMsg] : List Effect).any isErrLine) = true
    decide
  · intro env fs fp hc hf hl
    simp [processPair, processLoaded, hc, hf, hl]

/-- Counterexample to C4 as stated: in `badLoadEnv` the file `bad.ttf`
exists but is not a parseable font; the run terminates (exit status 1)
with no `[fontname.py] ERROR:`-prefixed write in its trace. -/
theorem load_failure_without_diagnostic :
    ((runMain badLoadEnv ["A:B", "bad.ttf"]).1.any isErrLine) = false
  ∧ (runMain badLoadEnv ["A:B", "bad.ttf"]).2 = Outcome.uncaught (PyExc.ttLibError "bad.ttf")
  ∧ Outcome.code (runMain badLoadEnv ["A:B", "bad.ttf"]).2 = 1 := by
  decide

/-- Witness for the amended C4, discharging every hypothesis at concrete
inputs: a usage error, a run ending in exit code 1 (malformed token), a
broken-CFF font, and a load failure. -/
theorem handled_failures_diagnosed_witness :
    ((runMain goodEnv ["lonely-token"]).1.any isErrLine) = true
  ∧ ((runMain goodEnv ["missing-colon", "good.ttf"]).1.any isErrLine) = true
  ∧ ((renameFont "New" "Bold" cffBrokenFont).1.any isErrLine) = true
  ∧ processPair badLoadEnv "A:B" "bad.ttf" =
      ([Effect.loadFont "bad.ttf"], some (Outcome.uncaught (PyExc.ttLibError "bad.ttf"))) :=
  ⟨handled_failures_diagnosed.1 goodEnv ["lonely-token"] (by decide),
   handled_failures_diagnosed.2.1 goodEnv ["missing-colon", "good.ttf"] (by decide),
   handled_failures_diagnosed.2.2.1 "New" "Bold" cffBrokenFont
     { FamilyName := "Old", FullName := "Old Regular", fontNames := ["Old-Regular"] } rfl rfl,
   handled_failures_diagnosed.2.2.2 badLoadEnv "A:B" "bad.ttf" (by decide) (by decide) (by decide)⟩

/-! ## Claim C5 (corrected): shape of accepted spec tokens -/

/-- Counterexample to C5 as stated: the token "A:" is accepted (it
contains `:` and the pair proceeds to font processing — the font is
loaded), yet the trimmed style is the empty string. -/
theorem empty_style_accepted :
    hasColon "A:" = true
  ∧ (parseSpec "A:").2 = ""
  ∧ Effect.loadFont "good.ttf" ∈ (processPair goodEnv "A:" "good.ttf").1 := by
  decide

/-- C5 amended.  For every accepted spec token (one containing `:`), the
family and style obtained by splitting at the first `:` and stripping are
fully trimmed — stripping them again changes nothing, i.e. they carry no
leading or trailing whitespace — but they may be empty: non-emptiness is
not checked by the program. -/
theorem accepted_spec_trimmed (tok : String) (_h : hasColon tok = true) :
    pyStrip (parseSpec tok).1 = (parseSpec tok).1
  ∧ pyStrip (parseSpec tok).2 = (parseSpec tok).2 := by
  unfold parseSpec
  exact ⟨pyStrip_idem _, pyStrip_idem _⟩

/-- Witness for the amended C5 at a concrete token. -/
theorem accepted_spec_trimmed_witness :
    hasColon " Open Sans : Bold " = true
  ∧ pyStrip (parseSpec " Open Sans : Bold ").1 = (parseSpec " Open Sans : Bold ").1
  ∧ pyStrip (parseSpec " Open Sans : Bold ").2 = (parseSpec " Open Sans : Bold ").2 :=
  ⟨by decide,
   (accepted_spec_trimmed " Open Sans : Bold " (by decide)).1,
   (accepted_spec_trimmed " Open Sans : Bold " (by decide)).2⟩

/-! ## Claim C6: CFF substructure update and its failure mode -/

/-- Equation: a pair whose file exists, whose font loads and whose save
succeeds runs through load, rename and save. -/
theorem processLoaded_save_ok (env : Env) (f s p : String) (tt : Font)
    (hex : env.fileExists p = true) (hld : env.loadFont p = some tt)
    (hsv : env.saveOk (newFilename f s p) = true) :
    processLoaded env f s p =
      (Effect.loadFont p :: (renameFont f s tt).1 ++
        [Effect.saveFont (newFilename f s p) (renameFont f s tt).2,
         Effect.stdoutLine (okMsg (newFilename f s p) f s)], none) := by
  unfold processLoaded
  rw [hex, hld]
  show (if env.saveOk (newFilename f s p) = true then _ else _) = _
  rw [if_pos hsv]

/-- C6.  When the loaded font exposes a CFF substructure, the renamer
sets its family-name field to nameFamily, its full-name field to
nameFullName and its font-name list to the singleton [namePostscript];
when the CFF update raises, a diagnostic is written to the error stream
and the pair continues to the save step with the name-table update
already applied and not rolled back. -/
theorem cff_update_and_warning (env : Env) (f s p : String) (tt : Font) (c : CFFNames)
    (hex : env.fileExists p = true) (hld : env.loadFont p = some tt) (hcff : tt.cff = some c) :
    (tt.cffBroken = false →
      renameFont f s tt =
        ([], { names := updateRecords f s tt.names,
               cff := some { FamilyName := nameID1_string f,
                             FullName := nameID4_string f s,
                             fontNames := [nameID6_string f s] },
               cffBroken := false }))
  ∧ (tt.cffBroken = true →
      renameFont f s tt =
        ([Effect.stderrWrite cffErrMsg],
         { names := updateRecords f s tt.names, cff := some c, cffBroken := true })
      ∧ (env.saveOk (newFilename f s p) = true →
          processLoaded env f s p =
            ([Effect.loadFont p, Effect.stderrWrite cffErrMsg,
              Effect.saveFont (newFilename f s p)
                { names := updateRecords f s tt.names, cff := some c, cffBroken := true },
              Effect.stdoutLine (okMsg (newFilename f s p) f s)], none))) := by
  obtain ⟨nms, cffv, br⟩ := tt
  have hc2 : cffv = some c := hcff
  subst hc2
  constructor
  · intro hbr
    have hb2 : br = false := hbr
    subst hb2
    rfl
  · intro hbr
    have hb2 : br = true := hbr
    subst hb2
    constructor
    · rfl
    · intro hsv
      rw [processLoaded_save_ok env f s p ⟨nms, some c, true⟩ hex hld hsv]
      rfl

/-- Witness for C6 at a concrete environment and CFF font. -/
theorem cff_update_and_warning_witness :
    renameFont "New" "Bold" cffBrokenFont =
      ([Effect.stderrWrite cffErrMsg],
       { names := updateRecords "New" "Bold" cffBrokenFont.names,
         cff := some { FamilyName := "Old", FullName := "Old Regular", fontNames := ["Old-Regular"] },
         cffBroken := true })
  ∧ processLoaded cffEnv "New" "Bold" "font.otf" =
      ([Effect.loadFont "font.otf", Effect.stderrWrite cffErrMsg,
        Effect.saveFont (newFilename "New" "Bold" "font.otf")
          { names := updateRecords "New" "Bold" cffBrokenFont.names,
            cff := some { FamilyName := "Old", FullName := "Old Regular", fontNames := ["Old-Regular"] },
            cffBroken := true },
        Effect.stdoutLine (okMsg (newFilename "New" "Bold" "font.otf") "New" "Bold")], none) := by
  have h := cff_update_and_warning cffEnv "New" "Bold" "font.otf" cffBrokenFont
    { FamilyName := "Old", FullName := "Old Regular", fontNames := ["Old-Regular"] }
    (by decide) (by decide) rfl
  exact ⟨(h.2 rfl).1, (h.2 rfl).2 (by decide)⟩

/-! ## Claim C7: shape of the derived output path -/

/-- C7.  The output file path is postscriptFamily ++ "-" ++
style-without-spaces ++ the input path's extension (case and leading dot
preserved by `splitextExt`), and it depends on the input path only
through that extension — not through the base name. -/
theorem output_path_spec (f s p : String) :
    newFilename f s p = postscript_font_name f ++ "-" ++ pyReplaceAll ' ' s ++ splitextExt p
  ∧ (∀ q : String, splitextExt q = splitextExt p → newFilename f s q = newFilename f s p) := by
  constructor
  · rfl
  · intro q hq
    unfold newFilename
    rw [hq]

/-- Witness for C7: a mixed-case extension is preserved verbatim and two
inputs with different base names yield the same output path. -/
theorem output_path_spec_witness :
    newFilename "Open Sans" "Bold Italic" "fonts/OldName.TTF" = "OpenSans-BoldItalic.TTF"
  ∧ newFilename "Open Sans" "Bold Italic" "other/Different_Base.TTF"
      = newFilename "Open Sans" "Bold Italic" "fonts/OldName.TTF" :=
  ⟨by decide,
   (output_path_spec "Open Sans" "Bold Italic" "fonts/OldName.TTF").2
     "other/Different_Base.TTF" (by decide)⟩

/-! ## Claim C8 (corrected): idempotence of the rename -/

theorem updateRecord_idem (f s : String) (r : NameRecord) :
    updateRecord f s (updateRecord f s r) = updateRecord f s r := by
  by_cases h1 : r.nameID = 1
  · simp [updateRecord, h1]
  by_cases h4 : r.nameID = 4
  · simp [updateRecord, h1, h4]
  by_cases h6 : r.nameID = 6
  · simp [updateRecord, h1, h4, h6]
  by_cases h16 : r.nameID = 16
  · simp [updateRecord, h1, h4, h6, h16]
  by_cases h2 : r.nameID = 2
  · simp [updateRecord, h1, h4, h6, h16, h2]
  · simp [updateRecord, h1, h4, h6, h16, h2]

theorem updateRecords_idem (f s : String) : ∀ rs : List NameRecord,
    updateRecords f s (updateRecords f s rs) = updateRecords f s rs
  | [] => rfl
  | r :: t => by
    show updateRecord f s (updateRecord f s r) :: updateRecords f s (updateRecords f s t)
        = updateRecord f s r :: updateRecords f s t
    rw [updateRecord_idem, updateRecords_idem f s t]

theorem takeWhile_all (p : Char → Bool) : ∀ l : List Char,
    (∀ c ∈ l, p c = true) → l.takeWhile p = l
  | [], _ => rfl
  | a :: t, h => by
    rw [List.takeWhile_cons_of_pos (h a (by simp))]
    rw [takeWhile_all p t (fun c hc => h c (by simp [hc]))]

theorem takeWhile_append_stop (p : Char → Bool) : ∀ (l1 : List Char) (c : Char) (l2 : List Char),
    (∀ a ∈ l1, p a = true) → p c = false → (l1 ++ c :: l2).takeWhile p = l1
  | [], c, l2, _, hc => by
    rw [List.nil_append]
    exact List.takeWhile_cons_of_neg (by simp [hc])
  | a :: t, c, l2, h, hc => by
    rw [List.cons_append, List.takeWhile_cons_of_pos (h a (by simp))]
    rw [takeWhile_append_stop p t c l2 (fun x hx => h x (by simp [hx])) hc]

theorem dropWhile_append_of_ne (p : Char → Bool) : ∀ (l1 l2 : List Char) (c : Char),
    c ∈ l1 → p c = false → (l1 ++ l2).dropWhile p = l1.dropWhile p ++ l2
  | [], _, c, hc, _ => by simp at hc
  | a :: t, l2, c, hc, hpc => by
    by_cases ha : p a
    · rw [List.cons_append, List.dropWhile_cons_of_pos ha, List.dropWhile_cons_of_pos ha]
      have hct : c ∈ t := by
        rcases List.mem_cons.mp hc with h | h
        · rw [← h] at ha
          exact absurd ha (by simp [hpc])
        · exact h
      exact dropWhile_append_of_ne p t l2 c hct hpc
    · rw [List.cons_append, List.dropWhile_cons_of_neg ha, List.dropWhile_cons_of_neg ha]
      rw [List.cons_append]

theorem dropWhile_all_neg (p : Char → Bool) : ∀ l : List Char,
    (∀ c ∈ l, p c = false) → l.dropWhile p = l
  | [], _ => rfl
  | a :: t, h => List.dropWhile_cons_of_neg (by simp [h a (by simp)])

/-- Every character of a final path component is not a separator. -/
theorem mem_basename_no_slash (l : List Char) (c : Char) (hc : c ∈ basenameChars l) :
    ¬ (c = '/') := by
  unfold basenameChars at hc
  rw [List.mem_reverse] at hc
  have := List.mem_takeWhile_imp hc
  simpa using this

/-- A slash-free list is its own final path component. -/
theorem basename_of_no_slash (l : List Char) (h : ∀ c ∈ l, ¬ (c = '/')) :
    basenameChars l = l := by
  unfold basenameChars
  rw [takeWhile_all _ l.reverse (fun c hc => by
    have := h c (List.mem_reverse.mp hc)
    simpa using this)]
  exact List.reverse_reverse l

/-- Shape of a computed extension: empty, or a dot followed by a dot-free
suffix. -/
theorem extChars_shape (b : List Char) :
    extChars b = [] ∨ ∃ suf : List Char, extChars b = '.' :: suf ∧ ∀ c ∈ suf, ¬ (c = '.') := by
  unfold extChars
  by_cases h : ((b.dropWhile (fun c => c == '.')).reverse.takeWhile (fun c => c != '.')).length
      < (b.dropWhile (fun c => c == '.')).length
  · right
    refine ⟨((b.dropWhile (fun c => c == '.')).reverse.takeWhile (fun c => c != '.')).reverse,
      by rw [if_pos h], ?_⟩
    intro c hc
    rw [List.mem_reverse] at hc
    have := List.mem_takeWhile_imp hc
    simpa using this
  · left
    rw [if_neg h]

/-- No character of a computed extension is a separator. -/
theorem mem_ext_no_slash (l : List Char) (c : Char) (hc : c ∈ extChars (basenameChars l)) :
    ¬ (c = '/') := by
  unfold extChars at hc
  by_cases h : (((basenameChars l).dropWhile (fun c => c == '.')).reverse.takeWhile
      (fun c => c != '.')).length < ((basenameChars l).dropWhile (fun c => c == '.')).length
  · rw [if_pos h] at hc
    rcases List.mem_cons.mp hc with h1 | h1
    · rw [h1]; decide
    · rw [List.mem_reverse] at h1
      have h2 := (List.takeWhile_sublist _).subset h1
      rw [List.mem_reverse] at h2
      have h3 := (List.dropWhile_sublist _).subset h2
      exact mem_basename_no_slash l c h3
  · rw [if_neg h] at hc
    simp at hc

theorem mk_data (s : String) : String.mk s.data = s := rfl

/-- Appending a stem that contains `'-'`, no `'/'`, and (when the
extension is empty) no `'.'` in front of a path's computed extension
reproduces exactly that extension. -/
theorem extChars_append_ext (st : List Char) (p : String)
    (hslash : ∀ c ∈ st, ¬ (c = '/'))
    (hdash : '-' ∈ st)
    (hdot : splitextExt p ≠ "" ∨ ∀ c ∈ st, ¬ (c = '.')) :
    extChars (basenameChars (st ++ (splitextExt p).data)) = (splitextExt p).data := by
  have hE_no_slash : ∀ c ∈ (splitextExt p).data, ¬ (c = '/') :=
    fun c hc => mem_ext_no_slash p.data c hc
  have hbase : basenameChars (st ++ (splitextExt p).data) = st ++ (splitextExt p).data := by
    apply basename_of_no_slash
    intro c hc
    rcases List.mem_append.mp hc with h | h
    · exact hslash c h
    · exact hE_no_slash c h
  rw [hbase]
  have hshape : (splitextExt p).data = []
      ∨ ∃ suf, (splitextExt p).data = '.' :: suf ∧ ∀ c ∈ suf, ¬ (c = '.') :=
    extChars_shape (basenameChars p.data)
  rcases hshape with hE | ⟨suf, hEeq, hsuf⟩
  · have hdot2 : ∀ c ∈ st, ¬ (c = '.') := by
      rcases hdot with h | h
      · exfalso
        apply h
        rw [← mk_data (splitextExt p), hE]
      · exact h
    rw [hE, List.append_nil]
    simp only [extChars]
    rw [dropWhile_all_neg _ st (fun c hc => beq_eq_false_iff_ne.mpr (hdot2 c hc))]
    rw [takeWhile_all _ st.reverse
      (fun c hc => bne_iff_ne.mpr (hdot2 c (List.mem_reverse.mp hc)))]
    rw [List.length_reverse]
    rw [if_neg (Nat.lt_irrefl st.length)]
  · rw [hEeq]
    simp only [extChars]
    have hdrop : (st ++ '.' :: suf).dropWhile (fun c => c == '.')
        = st.dropWhile (fun c => c == '.') ++ '.' :: suf :=
      dropWhile_append_of_ne _ st ('.' :: suf) '-' hdash (by decide)
    rw [hdrop]
    have hrev : (st.dropWhile (fun c => c == '.') ++ '.' :: suf).reverse
        = suf.reverse ++ '.' :: (st.dropWhile (fun c => c == '.')).reverse := by
      rw [List.reverse_append, List.reverse_cons, List.append_assoc, List.singleton_append]
    rw [hrev]
    have htake : (suf.reverse ++ '.' :: (st.dropWhile (fun c => c == '.')).reverse).takeWhile
          (fun c => c != '.') = suf.reverse :=
      takeWhile_append_stop _ suf.reverse '.' _
        (fun a ha => bne_iff_ne.mpr (hsuf a (List.mem_reverse.mp ha))) (by decide)
    rw [htake]
    have hlen : suf.reverse.length
        < (st.dropWhile (fun c => c == '.') ++ '.' :: suf).length := by
      rw [List.length_reverse, List.length_append, List.length_cons]
      omega
    rw [if_pos hlen, List.reverse_reverse]

/-- Counterexample to C8 as stated: with family "A.B", style "C" and the
extension-less input path "font", the first output path is "A.B-C", and
recomputing the output path from that output yields "A.B-C.B-C" — not
the same path. -/
theorem filename_not_idempotent :
    newFilename "A.B" "C" (newFilename "A.B" "C" "font") ≠ newFilename "A.B" "C" "font" := by
  decide

/-- C8 amended.  Applying the name-record update twice with the same spec
equals applying it once, on every record.  The output path recomputed
from the first run's output equals the first output path provided the
extension-free stem (postscriptFamily ++ "-" ++ styleNoSpaces) contains
no '/' and — whenever the original extension is empty — no '.'; without
that proviso the recomputed path can differ (see the counterexample). -/
theorem rename_idempotent (f s : String) (rs : List NameRecord) (p : String)
    (hslash : ∀ c ∈ (fnameStem f s).data, ¬ (c = '/'))
    (hdot : splitextExt p ≠ "" ∨ ∀ c ∈ (fnameStem f s).data, ¬ (c = '.')) :
    updateRecords f s (updateRecords f s rs) = updateRecords f s rs
  ∧ newFilename f s (newFilename f s p) = newFilename f s p := by
  refine ⟨updateRecords_idem f s rs, ?_⟩
  have hdash : '-' ∈ (fnameStem f s).data := by
    show '-' ∈ ((postscript_font_name f ++ "-") ++ pyReplaceAll ' ' s).data
    rw [data_append, data_append]
    simp
  have hkey : splitextExt (newFilename f s p) = splitextExt p := by
    show String.mk (extChars (basenameChars (newFilename f s p).data)) = splitextExt p
    rw [show (newFilename f s p).data = (fnameStem f s).data ++ (splitextExt p).data from
      data_append _ _]
    rw [extChars_append_ext (fnameStem f s).data p hslash hdash hdot]
  show fnameStem f s ++ splitextExt (newFilename f s p) = fnameStem f s ++ splitextExt p
  rw [hkey]

/-- Witness for the amended C8 at a concrete spec, table and path. -/
theorem rename_idempotent_witness :
    updateRecords "Open Sans" "Bold" (updateRecords "Open Sans" "Bold" sampleNames)
      = updateRecords "Open Sans" "Bold" sampleNames
  ∧ newFilename "Open Sans" "Bold" (newFilename "Open Sans" "Bold" "dir/old.ttf")
      = newFilename "Open Sans" "Bold" "dir/old.ttf" :=
  ⟨(rename_idempotent "Open Sans" "Bold" sampleNames "dir/old.ttf" (by decide) (by decide)).1,
   (rename_idempotent "Open Sans" "Bold" sampleNames "dir/old.ttf" (by decide) (by decide)).2⟩

end Fontname
